import Mathlib

/-!
Verification of the OIFITS ingestion and query layer of the `ir-tools`
repository, a shallow embedding of `plotting/oifits.py` (the `Dataset`/`Data`
aggregate, `get_station_names`, `read_data`) and `plotting/io.py` (`read`,
`filter`, `_get_header_entry`, `get`).

Modelling conventions:
- Python floats are modelled by `PyFloat` (`nan` or a rational); the only
  float operations the code performs on measurement values are addition and
  finiteness tests, which this captures.
- FITS binary tables are modelled as named columns (`Col`); astropy resolves
  column and extension names case-insensitively, which is modelled by
  uppercasing both sides before comparison, while membership tests on
  `columns.names` (used by the source for `"FLUXDATA"`/`"VISPHI"`) are exact,
  as in Python's `in` on the list of stored names.
- Fallible Python operations return `Except PyError`; a raised exception is
  an `Except.error`.
-/

namespace IrTools

/-- Python exception kinds raised by the code paths under study. -/
inductive PyError where
  | keyError
  | indexError
  | typeError
  | valueError
  | maskError
  | osError
  | unboundLocalError
deriving DecidableEq, Repr

/-- A Python float as used by the ingestion code: `nan` or a finite value.
The code only ever adds coordinate values and tests finiteness
(`np.ma.masked_invalid`), so finite values are carried as rationals. -/
inductive PyFloat where
  | nan
  | num (q : ℚ)
deriving DecidableEq, Repr

/-- Float addition as used for the closure-triangle third leg: `nan`
propagates, finite values add. -/
def pyAdd : PyFloat → PyFloat → PyFloat
  | .nan, _ => .nan
  | _, .nan => .nan
  | .num p, .num q => .num (p + q)

/-- `np.isfinite` on the model floats. -/
def PyFloat.isFinite : PyFloat → Bool
  | .nan => false
  | .num _ => true

/-- ASCII uppercase of a string, the model of Python's `str.upper`. -/
def pyUpper (s : String) : String := ⟨s.data.map Char.toUpper⟩

/-- ASCII lowercase of a string, the model of Python's `str.lower`. -/
def pyLower (s : String) : String := ⟨s.data.map Char.toLower⟩

/-- Substring test, the model of Python's `pat in s`. -/
def containsSub (s pat : String) : Bool :=
  s.data.tails.any (fun t => pat.data.isPrefixOf t)

/-- Python's `sep.join(parts)`. -/
def pyJoin (sep : String) : List String → String
  | [] => ""
  | [s] => s
  | s :: rest => s ++ sep ++ pyJoin sep rest

/-- One-character string, used when Python iterates over the characters of a
string (as `"-".join` does when handed a single string). -/
def charStr (c : Char) : String := ⟨[c]⟩

/-- Prefix of a string before the first `T`, the model of
`content.split("T")[0]` applied to ISO date strings. -/
def takeBeforeT (s : String) : String := ⟨s.data.takeWhile (fun c => c ≠ 'T')⟩

/-- A FITS binary-table column. All columns of a real binary table share the
same number of rows (`Col.rows`); that format invariant is stated separately
as `HDU.wfB`. -/
inductive Col where
  | num1 (xs : List PyFloat)
  | num2 (xss : List (List PyFloat))
  | flags (bss : List (List Bool))
  | ints (xs : List Int)
  | intRows (xss : List (List Int))
  | strs (ss : List String)
deriving DecidableEq, Repr

/-- Number of rows of a column (the leading axis). -/
def Col.rows : Col → Nat
  | .num1 xs => xs.length
  | .num2 xss => xss.length
  | .flags bss => bss.length
  | .ints xs => xs.length
  | .intRows xss => xss.length
  | .strs ss => ss.length

/-- A FITS header: an ordered list of key/value cards. Values the code reads
(`INSTRUME`, `DATE-OBS`) are strings. -/
structure Header where
  entries : List (String × String)
deriving DecidableEq, Repr

/-- astropy header lookup is case-insensitive on the key. -/
def headerGet (h : Header) (k : String) : Option String :=
  (h.entries.find? (fun p => pyUpper p.1 == pyUpper k)).map (fun p => p.2)

/-- One HDU: extension name (`none` for the primary HDU), `EXTVER`, header
and binary-table columns. -/
structure HDU where
  extname : Option String
  extver : Nat
  header : Header
  table : List (String × Col)
deriving DecidableEq, Repr

/-- An opened FITS file. `objId` models Python object identity: two handles
with different `objId` are distinct objects (e.g. a deep copy gets a fresh
`objId`). -/
structure HDUList where
  objId : Nat
  hdus : List HDU
deriving DecidableEq, Repr

/-- astropy's `hdul[name]` / `hdul[name, ver]` lookup: the first HDU whose
`EXTNAME` matches case-insensitively and, when a version is given, whose
`EXTVER` equals it; `hdul[name, None]` behaves like `hdul[name]`. -/
def lookupHDU (h : HDUList) (name : String) (ver : Option Nat) : Option HDU :=
  h.hdus.find? (fun u =>
    match u.extname with
    | some n =>
        pyUpper n == pyUpper name &&
          (match ver with
           | none => true
           | some v => u.extver == v)
    | none => false)

/-- astropy's `hdu.data[col]`: case-insensitive column lookup. -/
def getColRaw (u : HDU) (c : String) : Option Col :=
  (u.table.find? (fun p => pyUpper p.1 == pyUpper c)).map (fun p => p.2)

/-- Exact membership in `hdu.columns.names`, the model of Python's
`"NAME" in card.columns.names`. -/
def hasCol (u : HDU) (c : String) : Bool := u.table.any (fun p => p.1 == c)

/-- Column access expecting a 1-dimensional numeric column. -/
def getNum1 (u : HDU) (c : String) : Option (List PyFloat) :=
  match getColRaw u c with
  | some (.num1 xs) => some xs
  | _ => none

/-- Column access expecting a 2-dimensional numeric column (rows of spectral
channels). -/
def getNum2 (u : HDU) (c : String) : Option (List (List PyFloat)) :=
  match getColRaw u c with
  | some (.num2 xss) => some xss
  | _ => none

/-- Column access expecting the 2-dimensional boolean quality-flag column. -/
def getFlags (u : HDU) (c : String) : Option (List (List Bool)) :=
  match getColRaw u c with
  | some (.flags bss) => some bss
  | _ => none

/-- Column access expecting a 1-dimensional integer column. -/
def getInts (u : HDU) (c : String) : Option (List Int) :=
  match getColRaw u c with
  | some (.ints xs) => some xs
  | _ => none

/-- Column access expecting a string column. -/
def getStrs (u : HDU) (c : String) : Option (List String) :=
  match getColRaw u c with
  | some (.strs ss) => some ss
  | _ => none

/-- A station-index column as fed to `get_station_names`: 1-dimensional in
`OI_FLUX`, rows of pairs/triples in the other measurement extensions. -/
inductive StaCol where
  | one (xs : List Int)
  | many (xss : List (List Int))
deriving DecidableEq, Repr

/-- Column access for `STA_INDEX`, accepting both layouts. -/
def getStaIdx (u : HDU) (c : String) : Option StaCol :=
  match getColRaw u c with
  | some (.ints xs) => some (.one xs)
  | some (.intRows xss) => some (.many xss)
  | _ => none

/-- Row count of a station-index argument. -/
def staRows : StaCol → Nat
  | .one xs => xs.length
  | .many xss => xss.length

/-- Flattening of a station-index argument in C order, as `np.vectorize`
traverses it. -/
def flatSta : StaCol → List Int
  | .one xs => xs
  | .many xss => xss.flatten

/-- Format invariant of a FITS binary table: all columns share the row count. -/
def HDU.wfB (u : HDU) : Bool :=
  u.table.all (fun p => u.table.all (fun q => Col.rows p.2 == Col.rows q.2))

/-- Format invariant of a whole file. -/
def HDUList.wfB (h : HDUList) : Bool := h.hdus.all (fun u => u.wfB)

/-- The station dictionary `dict(zip(sta_index, tel_name))` with Python's
last-occurrence-wins lookup for duplicate keys. -/
def staLookup (si : List Int) (tn : List String) (x : Int) : Option String :=
  (((si.zip tn).reverse).find? (fun p => p.1 == x)).map (fun p => p.2)

/-- Per-row labels for the 2-dimensional `STA_INDEX` layout: each row's
resolved names joined by a dash, an unresolved index contributing the string
cast of Python's `None`. -/
def joinedPairLabels (xss : List (List Int)) (si : List Int) (tn : List String) :
    List String :=
  xss.map (fun row => pyJoin "-" (row.map (fun i => (staLookup si tn i).getD "None")))

/-- Per-row labels for the 1-dimensional `STA_INDEX` layout: iterating the
result of a 1-dimensional `np.vectorize` hands `"-".join` one string per row,
which Python joins character by character. -/
def joinedSingleLabels (xs : List Int) (si : List Int) (tn : List String) :
    List String :=
  xs.map (fun i => pyJoin "-" ((((staLookup si tn i).getD "None").data).map charStr))

/-- Embedding of `oifits.get_station_names`. `np.vectorize` without `otypes`
raises `ValueError` on size-0 input; otherwise it types its output from the
first element, so when the first flattened index has no dictionary entry the
output array has object dtype containing `None` and the subsequent
`"-".join` raises `TypeError`, while when the first element resolves the
output is cast to a string dtype, turning every unresolved `None` into the
literal string `"None"`. -/
def getStationNames (pairs : StaCol) (si : List Int) (tn : List String) :
    Except PyError (List String) :=
  match (flatSta pairs).head? with
  | none => .error .valueError
  | some x0 =>
    match staLookup si tn x0 with
    | none => .error .typeError
    | some _ =>
      .ok (match pairs with
           | .one xs => joinedSingleLabels xs si tn
           | .many xss => joinedPairLabels xss si tn)

/-- A numpy masked array: data plus an invalidity mask of the same shape. -/
structure MaskedArray where
  data : List (List PyFloat)
  mask : List (List Bool)
deriving DecidableEq, Repr

/-- Shape agreement between a 2-dimensional value array and a mask. -/
def shapeEqMask (a : List (List PyFloat)) (b : List (List Bool)) : Bool :=
  a.length == b.length && (a.zip b).all (fun p => p.1.length == p.2.length)

/-- `np.ma.masked_array(values, mask=flag)`; numpy raises `MaskError` when
the mask cannot be fitted to the data (OIFITS flag columns share the data
shape, so broadcasting of other shapes is not modelled). -/
def maskedArray (v : List (List PyFloat)) (fl : List (List Bool)) :
    Except PyError MaskedArray :=
  if shapeEqMask v fl then .ok ⟨v, fl⟩ else .error .maskError

/-- `np.ma.masked_invalid`: mask exactly the non-finite entries. -/
def maskedInvalid (xs : List (List PyFloat)) : MaskedArray :=
  ⟨xs, xs.map (fun r => r.map (fun t => !t.isFinite))⟩

/-- `np.full(m.shape, np.nan)` for the shape of a masked array's data. -/
def fullNanLike (m : MaskedArray) : List (List PyFloat) :=
  m.data.map (fun r => r.map (fun _ => PyFloat.nan))

/-- Elementwise numpy addition of two 1-dimensional float arrays; shape
mismatch raises. -/
def npAdd (a b : List PyFloat) : Except PyError (List PyFloat) :=
  if a.length = b.length then .ok (List.zipWith pyAdd a b) else .error .valueError

/-- The spatial-coordinate entry appended per file: the literal Python `[]`
for flux, a 1-dimensional `(u, v)` array for the visibility extensions, or
the 3-row closure-triangle stack for `t3`. -/
inductive XCoord where
  | list0
  | arr1 (xs : List PyFloat)
  | arr2 (xss : List (List PyFloat))
deriving DecidableEq, Repr

/-- One per-file record of an observable kind: the `(header, val, err, x, y,
name)` bundle `read_data` appends to a `Dataset`. -/
structure Record where
  header : Header
  val : MaskedArray
  err : MaskedArray
  x : XCoord
  y : XCoord
  name : List String
deriving DecidableEq, Repr

/-- `oifits.Dataset`: parallel per-file lists of the record fields. -/
structure Dataset where
  header : List Header
  val : List MaskedArray
  err : List MaskedArray
  x : List XCoord
  y : List XCoord
  name : List (List String)
deriving DecidableEq, Repr

/-- `oifits.Data`: the per-file handles, primary headers, wavelength grids,
array tables and one `Dataset` per observable kind. -/
structure Data where
  hduls : List HDUList
  header : List Header
  wl : List (List PyFloat)
  array : List HDU
  flux : Dataset
  vis2 : Dataset
  t3 : Dataset
  vis : Dataset
  visphi : Dataset
deriving DecidableEq, Repr

/-- The index selection of `read_data`: GRAVITY files carry several tables
per extension name, so a fixed `EXTVER` of 20 is used; otherwise the first
matching table is taken. -/
def gravIndex (instrume : String) : Option Nat :=
  if containsSub (pyLower instrume) "grav" then some 20 else none

/-- Lifts an optional astropy lookup to the exception it raises when absent. -/
def oe {α : Type} (o : Option α) (e : PyError) : Except PyError α :=
  match o with
  | some a => .ok a
  | none => .error e

/-- The common tail of `read_data`'s per-extension loop body: masked value
and error arrays (masked by the row flag column), the given coordinates, and
station labels resolved through the file's `OI_ARRAY` table. -/
def extractCommon (card arrHdu : HDU) (valKey errKey : String) (x y : XCoord) :
    Except PyError Record := do
  let v ← oe (getNum2 card valKey) .keyError
  let fl ← oe (getFlags card "flag") .keyError
  let mv ← maskedArray v fl
  let e ← oe (getNum2 card errKey) .keyError
  let me ← maskedArray e fl
  let si ← oe (getStaIdx card "sta_index") .keyError
  let ai ← oe (getInts arrHdu "sta_index") .keyError
  let an ← oe (getStrs arrHdu "sta_name") .keyError
  let nm ← getStationNames si ai an
  return ⟨card.header, mv, me, x, y, nm⟩

/-- The `key == "flux"` branch: value column is `FLUXDATA` when that spelling
exists, else `FLUX`; no coordinates, flux rows still get station labels. -/
def extractFlux (card arrHdu : HDU) : Except PyError Record :=
  extractCommon card arrHdu
    (if hasCol card "FLUXDATA" then "fluxdata" else "flux") "fluxerr"
    .list0 .list0

/-- The `key == "vis"` branch: extracts the visibility-amplitude record and,
first, the differential-phase record. When the `VISPHI` column exists the
differential phase is extracted like any other observable; when it is absent
the value and error are `masked_invalid` all-`nan` arrays shaped like the
current file's `vis2` value array and the names are copied from the `vis2`
record, while the coordinates are the `vis` extension's own
`UCOORD`/`VCOORD` in both branches. -/
def extractVisphi (card arrHdu : HDU) (vis2Rec : Record) (u v : List PyFloat) :
    Except PyError Record :=
  if hasCol card "VISPHI" = true then
    extractCommon card arrHdu "visphi" "visphierr" (.arr1 u) (.arr1 v)
  else
    pure ⟨card.header, maskedInvalid (fullNanLike vis2Rec.val),
          maskedInvalid (fullNanLike vis2Rec.val), .arr1 u, .arr1 v,
          vis2Rec.name⟩

/-- Continuation of the `key == "vis"` branch: the differential-phase record
is computed (and appended) first, then the visibility-amplitude record. -/
def extractVis (card arrHdu : HDU) (vis2Rec : Record) :
    Except PyError (Record × Record) := do
  let u ← oe (getNum1 card "ucoord") .keyError
  let v ← oe (getNum1 card "vcoord") .keyError
  let visphiRec ← extractVisphi card arrHdu vis2Rec u v
  let visRec ← extractCommon card arrHdu "visamp" "visamperr" (.arr1 u) (.arr1 v)
  return (visphiRec, visRec)

/-- The `key == "t3"` branch: the coordinate stacks hold the two measured
triangle legs and their elementwise sum. -/
def extractT3 (card arrHdu : HDU) : Except PyError Record := do
  let u1 ← oe (getNum1 card "u1coord") .keyError
  let u2 ← oe (getNum1 card "u2coord") .keyError
  let v1 ← oe (getNum1 card "v1coord") .keyError
  let v2 ← oe (getNum1 card "v2coord") .keyError
  let u3 ← npAdd u1 u2
  let v3 ← npAdd v1 v2
  extractCommon card arrHdu "t3phi" "t3phierr"
    (.arr2 [u1, u2, u3]) (.arr2 [v1, v2, v3])

/-- Everything `read_data`'s loop body appends for one file. -/
structure FileRec where
  hdul : HDUList
  header : Header
  wl : List PyFloat
  array : HDU
  flux : Record
  vis2 : Record
  vis : Record
  visphi : Record
  t3 : Record
deriving DecidableEq, Repr

/-- One iteration of `read_data`'s file loop. The loop body's only backward
references into the aggregate (`data.header[-1]`, `data.array[-1]`,
`data.vis2.val[-1]`, `data.vis2.name[-1]`) resolve to entries appended
earlier in the same iteration, so the body is per-file: this function
performs the extraction in source order and the appends are batched in
`aggregate`. The unfinished `if key == "vis" and "oi_vis" not in hdul: ...`
guard in the source is a no-op (`...` is the Ellipsis expression, not a
`continue`), so a missing `OI_VIS` extension reaches the `hdul["oi_vis",
index]` lookup and raises `KeyError`, exactly as the other extensions do. -/
def extractFile (hdul : HDUList) : Except PyError FileRec := do
  let primary ← oe hdul.hdus.head? .indexError
  let instrume ← oe (headerGet primary.header "INSTRUME") .keyError
  let index := gravIndex instrume
  let wlHdu ← oe (lookupHDU hdul "oi_wavelength" index) .keyError
  let wl ← oe (getNum1 wlHdu "eff_wave") .keyError
  let arrHdu ← oe (lookupHDU hdul "oi_array" none) .keyError
  let fluxCard ← oe (lookupHDU hdul "oi_flux" index) .keyError
  let fluxRec ← extractFlux fluxCard arrHdu
  let vis2Card ← oe (lookupHDU hdul "oi_vis2" index) .keyError
  let u2c ← oe (getNum1 vis2Card "ucoord") .keyError
  let v2c ← oe (getNum1 vis2Card "vcoord") .keyError
  let vis2Rec ← extractCommon vis2Card arrHdu "vis2data" "vis2err"
    (.arr1 u2c) (.arr1 v2c)
  let visCard ← oe (lookupHDU hdul "oi_vis" index) .keyError
  let visPair ← extractVis visCard arrHdu vis2Rec
  let t3Card ← oe (lookupHDU hdul "oi_t3" index) .keyError
  let t3Rec ← extractT3 t3Card arrHdu
  return ⟨hdul, primary.header, wl, arrHdu, fluxRec, vis2Rec, visPair.2,
          visPair.1, t3Rec⟩

/-- Error-propagating map, the loop over input files: the first raised
exception aborts the whole call. -/
def mapE {α β : Type} (f : α → Except PyError β) : List α → Except PyError (List β)
  | [] => .ok []
  | a :: as => do
      let b ← f a
      let bs ← mapE f as
      return b :: bs

/-- Assembles the per-file records into the `Data` aggregate; each file
contributes exactly one entry, in input order, to every list. -/
def aggregate (recs : List FileRec) : Data :=
  ⟨recs.map (fun r => r.hdul),
   recs.map (fun r => r.header),
   recs.map (fun r => r.wl),
   recs.map (fun r => r.array),
   ⟨recs.map (fun r => r.flux.header), recs.map (fun r => r.flux.val),
    recs.map (fun r => r.flux.err), recs.map (fun r => r.flux.x),
    recs.map (fun r => r.flux.y), recs.map (fun r => r.flux.name)⟩,
   ⟨recs.map (fun r => r.vis2.header), recs.map (fun r => r.vis2.val),
    recs.map (fun r => r.vis2.err), recs.map (fun r => r.vis2.x),
    recs.map (fun r => r.vis2.y), recs.map (fun r => r.vis2.name)⟩,
   ⟨recs.map (fun r => r.t3.header), recs.map (fun r => r.t3.val),
    recs.map (fun r => r.t3.err), recs.map (fun r => r.t3.x),
    recs.map (fun r => r.t3.y), recs.map (fun r => r.t3.name)⟩,
   ⟨recs.map (fun r => r.vis.header), recs.map (fun r => r.vis.val),
    recs.map (fun r => r.vis.err), recs.map (fun r => r.vis.x),
    recs.map (fun r => r.vis.y), recs.map (fun r => r.vis.name)⟩,
   ⟨recs.map (fun r => r.visphi.header), recs.map (fun r => r.visphi.val),
    recs.map (fun r => r.visphi.err), recs.map (fun r => r.visphi.x),
    recs.map (fun r => r.visphi.y), recs.map (fun r => r.visphi.name)⟩⟩

/-- Embedding of `oifits.read_data` over already-opened files (`fits.open`
on a path yields the file's HDU list, which is the model input). -/
def readData (files : List HDUList) : Except PyError Data :=
  (mapE extractFile files).map aggregate

/-- The `OI_VIS` card `read_data` resolves for one file: the same primary
header and instrument-dependent `EXTVER` selection as the extraction itself. -/
def resolveVisCard (f : HDUList) : Option HDU :=
  match f.hdus.head? with
  | none => none
  | some primary =>
    match headerGet primary.header "INSTRUME" with
    | none => none
    | some ins => lookupHDU f "oi_vis" (gravIndex ins)

/-! Models of `plotting/io.py`. -/

/-- An input to `io.read`: a path or an already-open handle. -/
inductive Source where
  | path (p : String)
  | hdul (h : HDUList)
deriving DecidableEq, Repr

/-- Embedding of `io.read` over an input list. `fs` maps a path to the file
content `fits.open` would yield (`none` when opening fails). Fresh Python
objects take consecutive ids from the counter: opening a path creates one
object and `copy.deepcopy` creates a second, which is what gets returned;
an input that already is an `HDUList` is appended as-is, without any copy,
per the `isinstance` branch of the source. Returns the handles and the next
unused object id. -/
def readFiles (fs : String → Option (List HDU)) :
    Nat → List Source → Except PyError (List HDUList × Nat)
  | c, [] => .ok ([], c)
  | c, .hdul h :: rest =>
    match readFiles fs c rest with
    | .ok (hs, cEnd) => .ok (h :: hs, cEnd)
    | .error e => .error e
  | c, .path p :: rest =>
    match fs p with
    | none => .error .osError
    | some content =>
      match readFiles fs (c + 2) rest with
      | .ok (hs, cEnd) => .ok (HDUList.mk (c + 1) content :: hs, cEnd)
      | .error e => .error e

/-- The alias table of `io.py` mapping convenience names to header keys. -/
def KEY_TO_ATTRIBUTE : List (String × String) :=
  [("date", "date-obs"), ("instrument", "instrume")]

/-- Embedding of `io._get_header_entry`: the key is passed through the alias
table by exact (case-sensitive) dictionary lookup, uppercased, and looked up
in the primary header with `""` as default; only the exact key `"date"`
triggers truncation to the part before `T`. -/
def getHeaderEntry (hdul : HDUList) (key : String) : Except PyError String :=
  match hdul.hdus.head? with
  | none => .error .indexError
  | some primary =>
    let attr := pyUpper (((KEY_TO_ATTRIBUTE.find? (fun p => p.1 == key)).map
      (fun p => p.2)).getD key)
    let content := (headerGet primary.header attr).getD ""
    .ok (if key == "date" then takeBeforeT content else content)

/-- Embedding of `io.filter`. Its DataFrame construction contains the dict
display `{key: [_get_header_entry(hdul, key) for key in conditions.keys()
for hdul in hduls]}`: the comprehension binds its own `key`, but the dict
key expression reads the enclosing function's local `key`, whose only
assignment is the later `for key, value in conditions.items()` loop, so
every call raises `UnboundLocalError` while building the DataFrame, before
any row is filtered. -/
def filterHduls (_hduls : List HDUList) (_conditions : List (String × String)) :
    Except PyError (List HDUList) :=
  .error .unboundLocalError

/-- Embedding of `io.get`. The source body consists of the docstring and the
bare Ellipsis expression `...` (marked `# TODO: Finish this`), so the
function returns Python's `None` for every input, whatever the key
addresses. -/
def ioGet (_hdul : HDUList) (_key : String) : Option Col := none

/-! Observable properties the claims are stated through. -/

/-- All six parallel lists of a `Dataset` have outer length `n`. -/
def dsLen (ds : Dataset) (n : Nat) : Prop :=
  ds.header.length = n ∧ ds.val.length = n ∧ ds.err.length = n ∧
  ds.x.length = n ∧ ds.y.length = n ∧ ds.name.length = n

/-- The `Data` aggregate is fully aligned on outer length `n`. -/
def dataLens (d : Data) (n : Nat) : Prop :=
  d.hduls.length = n ∧ d.header.length = n ∧ d.wl.length = n ∧
  d.array.length = n ∧ dsLen d.flux n ∧ dsLen d.vis2 n ∧ dsLen d.t3 n ∧
  dsLen d.vis n ∧ dsLen d.visphi n

/-- At file index `i` the dataset's value, error and name entries exist and
agree on row count. -/
def dsAlignedAt (ds : Dataset) (i : Nat) : Bool :=
  match ds.val[i]?, ds.err[i]?, ds.name[i]? with
  | some v, some e, some nm =>
      v.data.length == e.data.length && nm.length == v.data.length
  | _, _, _ => false

/-- Row-count agreement at file index `i` for every observable kind. -/
def alignedAt (d : Data) (i : Nat) : Bool :=
  dsAlignedAt d.flux i && dsAlignedAt d.vis2 i && dsAlignedAt d.t3 i &&
  dsAlignedAt d.vis i && dsAlignedAt d.visphi i

/-- A closure-phase coordinate stack: exactly three legs of equal length
whose third is the elementwise sum of the first two. -/
def isClosureStack : XCoord → Bool
  | .arr2 [a, b, c] => a.length == b.length && c == List.zipWith pyAdd a b
  | _ => false

/-- Both coordinate stacks of the `t3` record at file index `i` are closure
stacks. -/
def closureAt (d : Data) (i : Nat) : Bool :=
  match d.t3.x[i]?, d.t3.y[i]? with
  | some x, some y => isClosureStack x && isClosureStack y
  | _, _ => false

/-- Every sample of the masked array is marked invalid. -/
def allMasked (m : MaskedArray) : Bool :=
  m.mask.all (fun r => r.all (fun b => b))

/-- Two 2-dimensional arrays have the same shape. -/
def sameShape : List (List PyFloat) → List (List PyFloat) → Bool
  | [], [] => true
  | r :: rs, s :: ss => r.length == s.length && sameShape rs ss
  | _, _ => false

/-- The differential-phase record at file index `i` is the synthesized
fallback: value and error fully masked and shaped like the file's `vis2`
value array, names equal to the `vis2` names, and coordinates equal to the
resolved `OI_VIS` card's own `UCOORD`/`VCOORD` columns. -/
def visphiFallbackAt (d : Data) (i : Nat) (card : HDU) : Bool :=
  match d.visphi.val[i]?, d.visphi.err[i]?, d.vis2.val[i]?, d.visphi.name[i]?,
      d.vis2.name[i]?, d.visphi.x[i]?, d.visphi.y[i]? with
  | some pv, some pe, some v2, some pn, some vn, some px, some pyc =>
      allMasked pv && allMasked pe && sameShape pv.data v2.data &&
      sameShape pe.data v2.data && (pn == vn) &&
      (some px == (getNum1 card "ucoord").map XCoord.arr1) &&
      (some pyc == (getNum1 card "vcoord").map XCoord.arr1)
  | _, _, _, _, _, _, _ => false

/-! Concrete input files used by the closed theorems. -/

/-- The empty header. -/
def emptyHeader : Header := ⟨[]⟩

/-- The empty dataset. -/
def emptyDataset : Dataset := ⟨[], [], [], [], [], []⟩

/-- The empty aggregate, used only as the default of `okD`. -/
def emptyData : Data :=
  ⟨[], [], [], [], emptyDataset, emptyDataset, emptyDataset, emptyDataset,
   emptyDataset⟩

/-- Projects the successful result of an ingestion. -/
def okD (e : Except PyError Data) : Data :=
  match e with
  | .ok d => d
  | .error _ => emptyData

/-- A primary HDU of a PIONIER observation. -/
def primaryP : HDU :=
  ⟨none, 1, ⟨[("INSTRUME", "PIONIER"), ("DATE-OBS", "2023-05-02T01:00")]⟩, []⟩

/-- A primary HDU of a GRAVITY observation. -/
def primaryG : HDU :=
  ⟨none, 1, ⟨[("INSTRUME", "GRAVITY"), ("DATE-OBS", "2023-05-01T23:00")]⟩, []⟩

/-- A wavelength table. -/
def wlHduEx : HDU :=
  ⟨some "OI_WAVELENGTH", 1, emptyHeader, [("EFF_WAVE", .num1 [.num 2])]⟩

/-- An array table with three stations. -/
def arrHduEx : HDU :=
  ⟨some "OI_ARRAY", 1, emptyHeader,
   [("STA_INDEX", .ints [1, 2, 3]), ("STA_NAME", .strs ["A0", "B1", "C2"])]⟩

/-- A flux table with one row. -/
def fluxHduEx : HDU :=
  ⟨some "OI_FLUX", 1, emptyHeader,
   [("FLUXDATA", .num2 [[.num 4]]), ("FLUXERR", .num2 [[.num 1]]),
    ("FLAG", .flags [[false]]), ("STA_INDEX", .ints [1])]⟩

/-- A squared-visibility table with one baseline row and `(u, v) = (5, 6)`. -/
def vis2HduEx : HDU :=
  ⟨some "OI_VIS2", 1, emptyHeader,
   [("VIS2DATA", .num2 [[.num 1]]), ("VIS2ERR", .num2 [[.num 1]]),
    ("FLAG", .flags [[false]]), ("STA_INDEX", .intRows [[1, 2]]),
    ("UCOORD", .num1 [.num 5]), ("VCOORD", .num1 [.num 6])]⟩

/-- A visibility-amplitude table carrying the `VISPHI` column, with
`(u, v) = (10, 11)` distinct from the `vis2` coordinates. -/
def visHduFull : HDU :=
  ⟨some "OI_VIS", 1, emptyHeader,
   [("VISAMP", .num2 [[.num 2]]), ("VISAMPERR", .num2 [[.num 1]]),
    ("VISPHI", .num2 [[.num 30]]), ("VISPHIERR", .num2 [[.num 3]]),
    ("FLAG", .flags [[false]]), ("STA_INDEX", .intRows [[1, 2]]),
    ("UCOORD", .num1 [.num 10]), ("VCOORD", .num1 [.num 11])]⟩

/-- The same visibility-amplitude table without the `VISPHI`/`VISPHIERR`
columns. -/
def visHduNoPhi : HDU :=
  ⟨some "OI_VIS", 1, emptyHeader,
   [("VISAMP", .num2 [[.num 2]]), ("VISAMPERR", .num2 [[.num 1]]),
    ("FLAG", .flags [[false]]), ("STA_INDEX", .intRows [[1, 2]]),
    ("UCOORD", .num1 [.num 10]), ("VCOORD", .num1 [.num 11])]⟩

/-- A closure-phase table with one triangle row. -/
def t3HduEx : HDU :=
  ⟨some "OI_T3", 1, emptyHeader,
   [("T3PHI", .num2 [[.num 20]]), ("T3PHIERR", .num2 [[.num 2]]),
    ("FLAG", .flags [[false]]), ("STA_INDEX", .intRows [[1, 2, 3]]),
    ("U1COORD", .num1 [.num 5]), ("U2COORD", .num1 [.num 7]),
    ("V1COORD", .num1 [.num 1]), ("V2COORD", .num1 [.num 2])]⟩

/-- A complete file: every extension present, `VISPHI` included. -/
def wfile : HDUList :=
  ⟨0, [primaryP, wlHduEx, arrHduEx, fluxHduEx, vis2HduEx, visHduFull, t3HduEx]⟩

/-- The same file without any `OI_VIS` extension. -/
def noVisFile : HDUList :=
  ⟨0, [primaryP, wlHduEx, arrHduEx, fluxHduEx, vis2HduEx, t3HduEx]⟩

/-- The same file whose `OI_VIS` extension lacks the `VISPHI` column. -/
def noPhiFile : HDUList :=
  ⟨0, [primaryP, wlHduEx, arrHduEx, fluxHduEx, vis2HduEx, visHduNoPhi, t3HduEx]⟩

/-- The aggregate ingested from the complete file. -/
def wData : Data := okD (readData [wfile])

/-- The aggregate ingested from the `VISPHI`-less file. -/
def noPhiData : Data := okD (readData [noPhiFile])

/-- A file consisting only of a primary header, for the header-resolution
theorems. -/
def hdulC10 : HDUList := ⟨0, [primaryP]⟩

/-- The mixed five-file collection of the filter scenario: three GRAVITY and
two PIONIER files. -/
def fiveFiles : List HDUList :=
  [⟨0, [primaryG]⟩, ⟨1, [primaryG]⟩, ⟨2, [primaryP]⟩, ⟨3, [primaryG]⟩,
   ⟨4, [primaryP]⟩]

/-- An already-open handle with object id 5. -/
def ex8 : HDUList := ⟨5, []⟩

/-- A file system with no openable path. -/
def fs0 : String → Option (List HDU) := fun _ => none

/-- A file system holding one openable path. -/
def fsW : String → Option (List HDU) :=
  fun p => if p == "a.fits" then some [primaryP] else none

/-- A mixed source list: one path, one already-open handle. -/
def srcs8 : List Source := [.path "a.fits", .hdul ⟨7, [primaryP]⟩]

deriving instance DecidableEq for Except

/-! Helper lemmas. -/

theorem exbind_ok {α β : Type} {x : Except PyError α} {f : α → Except PyError β}
    {r : β} : x >>= f = Except.ok r ↔ ∃ a, x = Except.ok a ∧ f a = Except.ok r := by
  cases x <;> simp [Bind.bind, Except.bind]

theorem oe_ok {α : Type} {o : Option α} {e : PyError} {a : α} :
    oe o e = Except.ok a ↔ o = some a := by
  cases o <;> simp [oe]

theorem pure_ok {β : Type} {b r : β} :
    (pure b : Except PyError β) = Except.ok r ↔ b = r := by
  simp [pure, Except.pure]

theorem mapE_ok_length {α β : Type} {f : α → Except PyError β} {l : List α}
    {r : List β} (h : mapE f l = .ok r) : r.length = l.length := by
  induction l generalizing r with
  | nil =>
    simp only [mapE, Except.ok.injEq] at h
    simp [← h]
  | cons a as ih =>
    simp only [mapE, exbind_ok, pure_ok] at h
    obtain ⟨b, _, bs, hbs, hr⟩ := h
    simp [← hr, ih hbs]

theorem mapE_ok_get {α β : Type} {f : α → Except PyError β} {l : List α}
    {r : List β} (h : mapE f l = .ok r) :
    ∀ {i : Nat} {a : α}, l[i]? = some a → ∃ b, r[i]? = some b ∧ f a = .ok b := by
  induction l generalizing r with
  | nil => intro i a ha; simp at ha
  | cons x xs ih =>
    simp only [mapE, exbind_ok, pure_ok] at h
    obtain ⟨b, hb, bs, hbs, hr⟩ := h
    intro i a ha
    cases i with
    | zero =>
      simp at ha
      exact ⟨b, by simp [← hr], by rw [← ha]; exact hb⟩
    | succ j =>
      simp at ha
      obtain ⟨b', hb', hf⟩ := ih hbs ha
      exact ⟨b', by simp [← hr]; exact hb', hf⟩

theorem getColRaw_mem {u : HDU} {c : String} {col : Col}
    (h : getColRaw u c = some col) : ∃ nm, (nm, col) ∈ u.table := by
  unfold getColRaw at h
  cases hf : u.table.find? (fun p => pyUpper p.1 == pyUpper c) with
  | none => rw [hf] at h; cases h
  | some p =>
    rw [hf] at h
    have hm := List.mem_of_find?_eq_some hf
    cases h
    exact ⟨p.1, hm⟩

theorem getNum2_mem {u : HDU} {c : String} {v : List (List PyFloat)}
    (h : getNum2 u c = some v) : ∃ nm, (nm, Col.num2 v) ∈ u.table := by
  unfold getNum2 at h
  cases hr : getColRaw u c with
  | none => rw [hr] at h; cases h
  | some col =>
    rw [hr] at h
    cases col <;> simp at h
    subst h
    exact getColRaw_mem hr

theorem getStaIdx_mem {u : HDU} {c : String} {s : StaCol}
    (h : getStaIdx u c = some s) :
    ∃ nm col, (nm, col) ∈ u.table ∧ Col.rows col = staRows s := by
  unfold getStaIdx at h
  cases hr : getColRaw u c with
  | none => rw [hr] at h; cases h
  | some col =>
    rw [hr] at h
    cases col <;> simp at h <;> subst h
    · obtain ⟨nm, hm⟩ := getColRaw_mem hr
      exact ⟨nm, _, hm, rfl⟩
    · obtain ⟨nm, hm⟩ := getColRaw_mem hr
      exact ⟨nm, _, hm, rfl⟩

theorem wfB_rows {u : HDU} (hw : u.wfB = true) {n₁ n₂ : String} {c₁ c₂ : Col}
    (h₁ : (n₁, c₁) ∈ u.table) (h₂ : (n₂, c₂) ∈ u.table) :
    Col.rows c₁ = Col.rows c₂ := by
  simp only [HDU.wfB, List.all_eq_true] at hw
  have := hw _ h₁ _ h₂
  simpa using this

theorem lookupHDU_mem {f : HDUList} {n : String} {v : Option Nat} {u : HDU}
    (h : lookupHDU f n v = some u) : u ∈ f.hdus :=
  List.mem_of_find?_eq_some h

theorem wfB_hdu {f : HDUList} (hw : f.wfB = true) {u : HDU} (hm : u ∈ f.hdus) :
    u.wfB = true := by
  simp only [HDUList.wfB, List.all_eq_true] at hw
  exact hw _ hm

theorem getStationNames_ok_length {pairs : StaCol} {si : List Int}
    {tn : List String} {nm : List String}
    (h : getStationNames pairs si tn = .ok nm) : nm.length = staRows pairs := by
  unfold getStationNames at h
  cases hh : (flatSta pairs).head? with
  | none => rw [hh] at h; cases h
  | some x0 =>
    rw [hh] at h
    dsimp only at h
    cases hl : staLookup si tn x0 with
    | none => rw [hl] at h; cases h
    | some s =>
      rw [hl] at h
      dsimp only at h
      cases h
      cases pairs <;> simp [joinedSingleLabels, joinedPairLabels, staRows]

theorem maskedArray_ok_iff {v : List (List PyFloat)} {fl : List (List Bool)}
    {m : MaskedArray} :
    maskedArray v fl = .ok m ↔ shapeEqMask v fl = true ∧ m = ⟨v, fl⟩ := by
  unfold maskedArray
  split
  case isTrue hc =>
    simp only [Except.ok.injEq]
    constructor
    · intro he; exact ⟨hc, he.symm⟩
    · intro he; exact he.2.symm
  case isFalse hc =>
    constructor
    · intro he; cases he
    · intro he; exact absurd he.1 hc

theorem npAdd_ok_iff {a b c : List PyFloat} :
    npAdd a b = .ok c ↔ a.length = b.length ∧ c = List.zipWith pyAdd a b := by
  unfold npAdd
  split
  case isTrue hc =>
    simp only [Except.ok.injEq]
    constructor
    · intro he; exact ⟨hc, he.symm⟩
    · intro he; exact he.2.symm
  case isFalse hc =>
    constructor
    · intro he; cases he
    · intro he; exact absurd he.1 hc

theorem extractCommon_ok {card arrHdu : HDU} {valKey errKey : String}
    {x y : XCoord} {r : Record}
    (h : extractCommon card arrHdu valKey errKey x y = .ok r) :
    ∃ v fl e si ai an nm,
      getNum2 card valKey = some v ∧ getFlags card "flag" = some fl ∧
      getNum2 card errKey = some e ∧ getStaIdx card "sta_index" = some si ∧
      getInts arrHdu "sta_index" = some ai ∧
      getStrs arrHdu "sta_name" = some an ∧
      getStationNames si ai an = .ok nm ∧
      r = ⟨card.header, ⟨v, fl⟩, ⟨e, fl⟩, x, y, nm⟩ := by
  unfold extractCommon at h
  simp only [exbind_ok, oe_ok, pure_ok, maskedArray_ok_iff] at h
  obtain ⟨v, hv, fl, hfl, mv, ⟨hs1, hmv⟩, e, he, me, ⟨hs2, hme⟩, si, hsi, ai,
    hai, an, han, nm, hnm, hr⟩ := h
  subst hmv; subst hme
  exact ⟨v, fl, e, si, ai, an, nm, hv, hfl, he, hsi, hai, han, hnm, hr.symm⟩

/-- Row-count agreement of a single extracted record. -/
def recAligned (r : Record) : Prop :=
  r.val.data.length = r.err.data.length ∧ r.name.length = r.val.data.length

theorem extractCommon_aligned {card arrHdu : HDU} {valKey errKey : String}
    {x y : XCoord} {r : Record} (hw : card.wfB = true)
    (h : extractCommon card arrHdu valKey errKey x y = .ok r) : recAligned r := by
  obtain ⟨v, fl, e, si, ai, an, nm, hv, hfl, he, hsi, hai, han, hnm, hr⟩ :=
    extractCommon_ok h
  subst hr
  obtain ⟨n₁, hm₁⟩ := getNum2_mem hv
  obtain ⟨n₂, hm₂⟩ := getNum2_mem he
  obtain ⟨n₃, c₃, hm₃, hrows⟩ := getStaIdx_mem hsi
  constructor
  · simpa [Col.rows] using wfB_rows hw hm₁ hm₂
  · have h₁ : v.length = Col.rows c₃ := by
      simpa [Col.rows] using wfB_rows hw hm₁ hm₃
    have h₂ := getStationNames_ok_length hnm
    simp only
    rw [h₂, ← hrows, h₁]

theorem extractVis_ok {card arrHdu : HDU} {vis2Rec : Record}
    {p : Record × Record} (h : extractVis card arrHdu vis2Rec = .ok p) :
    ∃ u v,
      getNum1 card "ucoord" = some u ∧ getNum1 card "vcoord" = some v ∧
      extractCommon card arrHdu "visamp" "visamperr" (.arr1 u) (.arr1 v) =
        .ok p.2 ∧
      ((hasCol card "VISPHI" = true ∧
        extractCommon card arrHdu "visphi" "visphierr" (.arr1 u) (.arr1 v) =
          .ok p.1) ∨
       (hasCol card "VISPHI" = false ∧
        p.1 = ⟨card.header, maskedInvalid (fullNanLike vis2Rec.val),
               maskedInvalid (fullNanLike vis2Rec.val), .arr1 u, .arr1 v,
               vis2Rec.name⟩)) := by
  unfold extractVis at h
  simp only [exbind_ok, oe_ok, pure_ok] at h
  obtain ⟨u, hu, v, hv, pr, hpr, vr, hvr, hp⟩ := h
  subst hp
  refine ⟨u, v, hu, hv, hvr, ?_⟩
  unfold extractVisphi at hpr
  by_cases hc : hasCol card "VISPHI" = true
  · rw [if_pos hc] at hpr
    exact Or.inl ⟨hc, hpr⟩
  · rw [if_neg hc] at hpr
    rw [pure_ok] at hpr
    exact Or.inr ⟨Bool.not_eq_true _ ▸ hc, hpr.symm⟩

theorem extractT3_ok {card arrHdu : HDU} {r : Record}
    (h : extractT3 card arrHdu = .ok r) :
    ∃ u1 u2 v1 v2,
      getNum1 card "u1coord" = some u1 ∧ getNum1 card "u2coord" = some u2 ∧
      getNum1 card "v1coord" = some v1 ∧ getNum1 card "v2coord" = some v2 ∧
      u1.length = u2.length ∧ v1.length = v2.length ∧
      extractCommon card arrHdu "t3phi" "t3phierr"
        (.arr2 [u1, u2, List.zipWith pyAdd u1 u2])
        (.arr2 [v1, v2, List.zipWith pyAdd v1 v2]) = .ok r := by
  unfold extractT3 at h
  simp only [exbind_ok, oe_ok, pure_ok, npAdd_ok_iff] at h
  obtain ⟨u1, h1, u2, h2, v1, h3, v2, h4, u3, ⟨hl1, hu3⟩, v3, ⟨hl2, hv3⟩, hc⟩ := h
  subst hu3; subst hv3
  exact ⟨u1, u2, v1, v2, h1, h2, h3, h4, hl1, hl2, hc⟩

theorem extractFile_ok {f : HDUList} {r : FileRec} (h : extractFile f = .ok r) :
    ∃ primary instrume wlHdu wl arrHdu fluxCard fluxRec vis2Card u2c v2c
      vis2Rec visCard visPair t3Card t3Rec,
      f.hdus.head? = some primary ∧
      headerGet primary.header "INSTRUME" = some instrume ∧
      lookupHDU f "oi_wavelength" (gravIndex instrume) = some wlHdu ∧
      getNum1 wlHdu "eff_wave" = some wl ∧
      lookupHDU f "oi_array" none = some arrHdu ∧
      lookupHDU f "oi_flux" (gravIndex instrume) = some fluxCard ∧
      extractFlux fluxCard arrHdu = .ok fluxRec ∧
      lookupHDU f "oi_vis2" (gravIndex instrume) = some vis2Card ∧
      getNum1 vis2Card "ucoord" = some u2c ∧
      getNum1 vis2Card "vcoord" = some v2c ∧
      extractCommon vis2Card arrHdu "vis2data" "vis2err" (.arr1 u2c)
        (.arr1 v2c) = .ok vis2Rec ∧
      lookupHDU f "oi_vis" (gravIndex instrume) = some visCard ∧
      extractVis visCard arrHdu vis2Rec = .ok visPair ∧
      lookupHDU f "oi_t3" (gravIndex instrume) = some t3Card ∧
      extractT3 t3Card arrHdu = .ok t3Rec ∧
      r = ⟨f, primary.header, wl, arrHdu, fluxRec, vis2Rec, visPair.2,
           visPair.1, t3Rec⟩ := by
  unfold extractFile at h
  simp only [exbind_ok, oe_ok, pure_ok] at h
  obtain ⟨primary, hp, instrume, hi, wlHdu, hw, wl, hwl, arrHdu, ha, fluxCard,
    hfc, fluxRec, hfr, vis2Card, hv2c, u2c, hu, v2c, hv, vis2Rec, hv2r,
    visCard, hvc, visPair, hvp, t3Card, ht3c, t3Rec, ht3r, hr⟩ := h
  exact ⟨primary, instrume, wlHdu, wl, arrHdu, fluxCard, fluxRec, vis2Card,
    u2c, v2c, vis2Rec, visCard, visPair, t3Card, t3Rec, hp, hi, hw, hwl, ha,
    hfc, hfr, hv2c, hu, hv, hv2r, hvc, hvp, ht3c, ht3r, hr.symm⟩

theorem exmap_ok {α β : Type} {x : Except PyError α} {g : α → β} {d : β} :
    x.map g = .ok d ↔ ∃ a, x = .ok a ∧ d = g a := by
  cases x <;> simp [Except.map, eq_comm]

theorem readData_ok {files : List HDUList} {d : Data}
    (h : readData files = .ok d) :
    ∃ recs, mapE extractFile files = .ok recs ∧ d = aggregate recs := by
  unfold readData at h
  exact exmap_ok.mp h

theorem extractFile_aligned {f : HDUList} {r : FileRec} (hw : f.wfB = true)
    (h : extractFile f = .ok r) :
    recAligned r.flux ∧ recAligned r.vis2 ∧ recAligned r.t3 ∧
    recAligned r.vis ∧ recAligned r.visphi := by
  obtain ⟨primary, instrume, wlHdu, wl, arrHdu, fluxCard, fluxRec, vis2Card,
    u2c, v2c, vis2Rec, visCard, visPair, t3Card, t3Rec, hp, hi, hwq, hwl, ha,
    hfc, hfr, hv2c, hu, hv, hv2r, hvc, hvp, ht3c, ht3r, hr⟩ := extractFile_ok h
  subst hr
  have wfFlux : fluxCard.wfB = true := wfB_hdu hw (lookupHDU_mem hfc)
  have wfVis2 : vis2Card.wfB = true := wfB_hdu hw (lookupHDU_mem hv2c)
  have wfVis : visCard.wfB = true := wfB_hdu hw (lookupHDU_mem hvc)
  have wfT3 : t3Card.wfB = true := wfB_hdu hw (lookupHDU_mem ht3c)
  have hVis2Al : recAligned vis2Rec := extractCommon_aligned wfVis2 hv2r
  obtain ⟨u, v, hu', hv', hvr, hOr⟩ := extractVis_ok hvp
  obtain ⟨u1, u2, v1, v2, _, _, _, _, _, _, ht3e⟩ := extractT3_ok ht3r
  refine ⟨?_, hVis2Al, ?_, ?_, ?_⟩
  · unfold extractFlux at hfr
    exact extractCommon_aligned wfFlux hfr
  · exact extractCommon_aligned wfT3 ht3e
  · exact extractCommon_aligned wfVis hvr
  · cases hOr with
    | inl hc => exact extractCommon_aligned wfVis hc.2
    | inr hc =>
      rw [hc.2]
      constructor
      · simp [maskedInvalid, fullNanLike]
      · simp [maskedInvalid, fullNanLike]
        exact hVis2Al.2

/-! Claim theorems. -/

/-- C2: for any successful ingestion of N files by `read_data`, the returned
`Data` satisfies `len(hduls) == len(header) == len(wl) == len(array) == N`,
every `Dataset` field (`header`, `val`, `err`, `x`, `y`, `name`) of every
observable kind has outer length N, and within each file index the row
counts of `val`, `err` and `name` agree. The hypothesis `files.all wfB`
states the FITS binary-table format invariant that all columns of one table
share the row count. -/
theorem c2_alignment_invariant (files : List HDUList) (d : Data) (i : Nat)
    (hwf : files.all HDUList.wfB = true) (hok : readData files = .ok d)
    (hi : i < files.length) :
    dataLens d files.length ∧ alignedAt d i = true := by
  obtain ⟨recs, hm, hd⟩ := readData_ok hok
  subst hd
  have hlen := mapE_ok_length hm
  constructor
  · simp [aggregate, dataLens, dsLen, hlen]
  · have hfi : files[i]? = some files[i] := List.getElem?_eq_getElem hi
    obtain ⟨b, hbi, hfb⟩ := mapE_ok_get hm hfi
    have hwfi : (files[i]).wfB = true := by
      rw [List.all_eq_true] at hwf
      exact hwf _ (List.getElem_mem hi)
    obtain ⟨haF, haV2, haT3, haV, haP⟩ := extractFile_aligned hwfi hfb
    simp only [alignedAt, dsAlignedAt, aggregate, List.getElem?_map, hbi,
      Option.map_some']
    simp [haF.1, haF.2, haV2.1, haV2.2, haT3.1, haT3.2, haV.1, haV.2,
      haP.1, haP.2]

/-- Witness for C2 at a concrete single-file ingestion. -/
theorem c2_alignment_witness :
    dataLens wData [wfile].length ∧ alignedAt wData 0 = true :=
  c2_alignment_invariant [wfile] wData 0 (by decide) (by rfl) (by decide)

/-- C5: for every closure-phase (`t3`) record produced by `read_data`, over
all files and all measurement rows, the third leg of the coordinate stack
equals the elementwise sum of the first two legs: `x[2] = x[0] + x[1]` and
`y[2] = y[0] + y[1]`. -/
theorem c5_closure_identity (files : List HDUList) (d : Data) (i : Nat)
    (hok : readData files = .ok d) (hi : i < files.length) :
    closureAt d i = true := by
  obtain ⟨recs, hm, hd⟩ := readData_ok hok
  subst hd
  have hfi : files[i]? = some files[i] := List.getElem?_eq_getElem hi
  obtain ⟨b, hbi, hfb⟩ := mapE_ok_get hm hfi
  obtain ⟨primary, instrume, wlHdu, wl, arrHdu, fluxCard, fluxRec, vis2Card,
    u2c, v2c, vis2Rec, visCard, visPair, t3Card, t3Rec, hp, hins, hwq, hwl,
    ha, hfc, hfr, hv2c, hu, hv, hv2r, hvc, hvp, ht3c, ht3r, hr⟩ :=
    extractFile_ok hfb
  obtain ⟨u1, u2, v1, v2, h1, h2, h3, h4, hl1, hl2, ht3e⟩ := extractT3_ok ht3r
  obtain ⟨va, fl, ea, si, ai, an, nm, _, _, _, _, _, _, _, hrec⟩ :=
    extractCommon_ok ht3e
  subst hr
  simp only [closureAt, aggregate, List.getElem?_map, hbi, Option.map_some']
  rw [hrec]
  simp [isClosureStack, hl1, hl2]

/-- Witness for C5 at a concrete single-file ingestion. -/
theorem c5_closure_witness : closureAt wData 0 = true :=
  c5_closure_identity [wfile] wData 0 (by rfl) (by decide)

theorem allMasked_fallback (m : MaskedArray) :
    allMasked (maskedInvalid (fullNanLike m)) = true := by
  simp only [allMasked, maskedInvalid, fullNanLike, List.all_eq_true,
    List.map_map]
  intro r hr b hb
  obtain ⟨r₀, _, hr₀⟩ := List.mem_map.mp hr
  subst hr₀
  obtain ⟨q, hqmem, hq⟩ := List.mem_map.mp hb
  obtain ⟨q₀, _, hq0⟩ := List.mem_map.mp hqmem
  rw [← hq, ← hq0]
  rfl

theorem sameShape_mapmap (f : PyFloat → PyFloat) (l : List (List PyFloat)) :
    sameShape (l.map (fun r => r.map f)) l = true := by
  induction l with
  | nil => rfl
  | cons r rs ih => simp [sameShape, ih]

theorem sameShape_fallback (m : MaskedArray) :
    sameShape (maskedInvalid (fullNanLike m)).data m.data = true :=
  sameShape_mapmap (fun _ => PyFloat.nan) m.data

/-- C3 counterexample: on a file whose `OI_VIS` extension lacks the `VISPHI`
column, the synthesized differential-phase record's coordinates are the
`OI_VIS` extension's own `UCOORD`/`VCOORD` (here `(10, 11)`), not a copy of
the `vis2` record's coordinates (here `(5, 6)`), so the claim that
coordinates are copied from the `vis2` record is false. -/
theorem c3_visphi_coords_counterexample :
    ¬ (∀ d, readData [noPhiFile] = Except.ok d →
        d.visphi.x[0]? = d.vis2.x[0]?) := by
  intro hcl
  exact absurd (hcl noPhiData rfl) (by decide)

/-- C3 amended: for every file whose `OI_VIS` extension is present but lacks
the `VISPHI` column, `read_data` appends a `visphi` record whose value and
error arrays are entirely masked-invalid and shaped like that file's `vis2`
value array, whose names are copied from that file's `vis2` record, and
whose coordinates are the `OI_VIS` extension's own `UCOORD`/`VCOORD`
columns (not the `vis2` coordinates). -/
theorem c3_visphi_fallback_amended (files : List HDUList) (d : Data) (i : Nat)
    (f : HDUList) (card : HDU) (hok : readData files = .ok d)
    (hf : files[i]? = some f) (hcard : resolveVisCard f = some card)
    (hnophi : hasCol card "VISPHI" = false) :
    visphiFallbackAt d i card = true := by
  obtain ⟨recs, hm, hd⟩ := readData_ok hok
  subst hd
  obtain ⟨b, hbi, hfb⟩ := mapE_ok_get hm hf
  obtain ⟨primary, instrume, wlHdu, wl, arrHdu, fluxCard, fluxRec, vis2Card,
    u2c, v2c, vis2Rec, visCard, visPair, t3Card, t3Rec, hp, hins, hwq, hwl,
    ha, hfc, hfr, hv2c, hu, hv, hv2r, hvc, hvp, ht3c, ht3r, hr⟩ :=
    extractFile_ok hfb
  have hres : resolveVisCard f = some visCard := by
    unfold resolveVisCard
    rw [hp]
    dsimp only
    rw [hins]
    dsimp only
    exact hvc
  have hcc : card = visCard := by
    rw [hres] at hcard
    exact (Option.some.injEq _ _ ▸ hcard).symm
  subst hcc
  obtain ⟨u, v, hu', hv', hvr, hOr⟩ := extractVis_ok hvp
  cases hOr with
  | inl hc => rw [hc.1] at hnophi; cases hnophi
  | inr hc =>
    subst hr
    simp only [visphiFallbackAt, aggregate, List.getElem?_map, hbi,
      Option.map_some']
    rw [hc.2]
    dsimp only
    simp [allMasked_fallback, sameShape_fallback, hu', hv']

/-- Witness for the amended C3 at the concrete `VISPHI`-less file. -/
theorem c3_visphi_fallback_witness :
    visphiFallbackAt noPhiData 0 visHduNoPhi = true :=
  c3_visphi_fallback_amended [noPhiFile] noPhiData 0 noPhiFile visHduNoPhi
    (by rfl) (by decide) (by decide) (by decide)

/-- C1 (code bug): `read_data` on a file whose HDU list contains every
extension except `OI_VIS` raises `KeyError` at `hdul["oi_vis", index]` — the
missing-extension guard in the source is an unfinished `...` placeholder
(`# TODO: Finish this similar to the way it done for visphi`), not a
`continue` — while the same file with the extension present ingests
successfully; the claimed complete-without-raising behaviour does not
happen. -/
theorem c1_missing_vis_raises :
    readData [noVisFile] = .error .keyError ∧
    (readData [wfile]).toOption.isSome = true :=
  ⟨by decide, by decide⟩

/-- C4 (code bug): `io.filter` raises `UnboundLocalError` on every call,
including the spec's five-file GRAVITY scenario, because the dict display in
its DataFrame construction reads the function-local `key` before its first
assignment; no filtering ever happens. -/
theorem c4_filter_unbound_local :
    filterHduls fiveFiles [("instrument", "GRAVITY")] =
      .error .unboundLocalError := rfl

/-- C9 (code bug): the dotted path `OI_VIS.VISAMP` addresses a column that
exists in the file — the module's own extension/column lookups resolve it —
yet `io.get` returns `None` for it (and for every other key), because its
body is only the docstring and `...`; it never returns the addressed
value. -/
theorem c9_get_returns_none :
    ((lookupHDU wfile "OI_VIS" none).bind (fun u => getColRaw u "VISAMP") =
      some (Col.num2 [[PyFloat.num 2]])) ∧
    ioGet wfile "OI_VIS.VISAMP" = none :=
  ⟨by decide, rfl⟩

/-- C7 counterexample: with pairs `[[1, 2]]`, index table `[1]` and name
table `["A0"]`, the unmatched index 2 resolves to the literal component
`"None"` (label `"A0-None"`), not to an empty or absent component; and with
pairs `[[2, 1]]`, where the first flattened index is unmatched, the call
raises `TypeError` instead of recovering. -/
theorem c7_station_names_counterexample :
    getStationNames (.many [[1, 2]]) [1] ["A0"] = .ok ["A0-None"] ∧
    "A0-None" ≠ "A0-" ∧ "A0-None" ≠ "A0" ∧
    getStationNames (.many [[2, 1]]) [1] ["A0"] = .error .typeError :=
  ⟨by decide, by decide, by decide, by decide⟩

/-- C7 amended: for every array of station-index pairs or triples whose
first flattened index has a matching entry in the array-extension table,
station-name resolution produces one label per row by joining the resolved
names with `-` in the order the indices appear, an index with no matching
entry contributing the literal component `"None"`; when the first flattened
index has no match the call raises instead. -/
theorem c7_station_names_amended (xss : List (List Int)) (si : List Int)
    (tn : List String) (x0 : Int) (s0 : String)
    (h0 : xss.flatten.head? = some x0) (hl : staLookup si tn x0 = some s0) :
    getStationNames (.many xss) si tn = .ok (joinedPairLabels xss si tn) := by
  unfold getStationNames
  rw [show flatSta (.many xss) = xss.flatten from rfl, h0]
  dsimp only
  rw [hl]

/-- Witness for the amended C7 at the spec's station-labeling scenario. -/
theorem c7_station_names_witness :
    joinedPairLabels [[1, 2], [2, 3]] [1, 2, 3] ["A0", "B0", "C0"] =
      ["A0-B0", "B0-C0"] ∧
    getStationNames (.many [[1, 2], [2, 3]]) [1, 2, 3] ["A0", "B0", "C0"] =
      .ok (joinedPairLabels [[1, 2], [2, 3]] [1, 2, 3] ["A0", "B0", "C0"]) :=
  ⟨by decide,
   c7_station_names_amended [[1, 2], [2, 3]] [1, 2, 3] ["A0", "B0", "C0"] 1
     "A0" (by decide) (by decide)⟩

/-- C8 counterexample: `io.read` hands back an already-open handle itself —
the returned handle carries the caller's object id 5 — so the returned
sequence does not contain a copy distinct from the caller's original
object. -/
theorem c8_read_copy_counterexample :
    readFiles fs0 100 [.hdul ex8] = .ok ([ex8], 100) ∧
    ¬ (∀ hs c, readFiles fs0 100 [.hdul ex8] = .ok (hs, c) →
        ∀ h ∈ hs, h.objId ≠ ex8.objId) := by
  refine ⟨by decide, fun hcl => ?_⟩
  exact hcl [ex8] 100 (by decide) ex8 (by simp) rfl

/-- C8 amended: `io.read` passes an already-open handle through unchanged —
the output at that position is the identical object, aliasing the caller's —
and only path inputs are opened and deep-copied into fresh objects. -/
theorem c8_read_passthrough_amended (fs : String → Option (List HDU))
    (c : Nat) (srcs : List Source) (hs : List HDUList) (cEnd : Nat) (i : Nat)
    (h : HDUList) (hok : readFiles fs c srcs = .ok (hs, cEnd))
    (hsrc : srcs[i]? = some (.hdul h)) : hs[i]? = some h := by
  induction srcs generalizing c hs cEnd i with
  | nil => simp at hsrc
  | cons s rest ih =>
    cases s with
    | hdul h₀ =>
      unfold readFiles at hok
      cases hrec : readFiles fs c rest with
      | error e => rw [hrec] at hok; cases hok
      | ok pr =>
        obtain ⟨hs', c'⟩ := pr
        rw [hrec] at hok
        dsimp only at hok
        injection hok with hok
        injection hok with hok1 hok2
        subst hok1
        cases i with
        | zero =>
          simp only [List.getElem?_cons_zero] at hsrc ⊢
          injection hsrc with hsrc
          injection hsrc with hsrc
          rw [hsrc]
        | succ j =>
          simp only [List.getElem?_cons_succ] at hsrc ⊢
          exact ih c hs' c' j hrec hsrc
    | path p =>
      unfold readFiles at hok
      cases hfp : fs p with
      | none => rw [hfp] at hok; cases hok
      | some content =>
        rw [hfp] at hok
        dsimp only at hok
        cases hrec : readFiles fs (c + 2) rest with
        | error e => rw [hrec] at hok; cases hok
        | ok pr =>
          obtain ⟨hs', c'⟩ := pr
          rw [hrec] at hok
          dsimp only at hok
          injection hok with hok
          injection hok with hok1 hok2
          subst hok1
          cases i with
          | zero =>
            simp only [List.getElem?_cons_zero] at hsrc
            cases hsrc
          | succ j =>
            simp only [List.getElem?_cons_succ] at hsrc ⊢
            exact ih (c + 2) hs' c' j hrec hsrc

/-- Witness for the amended C8 on a mixed path/handle input list. -/
theorem c8_read_passthrough_witness :
    ([⟨1, [primaryP]⟩, ⟨7, [primaryP]⟩] : List HDUList)[1]? =
      some ⟨7, [primaryP]⟩ :=
  c8_read_passthrough_amended fsW 0 srcs8 [⟨1, [primaryP]⟩, ⟨7, [primaryP]⟩]
    2 1 ⟨7, [primaryP]⟩ (by decide) (by decide)

/-- C10 counterexample: header-field resolution is not case-insensitive. On
a file whose primary header holds `DATE-OBS` but no `DATE` card, the key
`"date"` resolves through the alias table to `"2023-05-02"` while `"Date"`,
with the same uppercasing, misses the case-sensitive alias lookup, is looked
up as `DATE` and resolves to `""`. -/
theorem c10_case_counterexample :
    ¬ (∀ k₁ k₂ : String, pyUpper k₁ = pyUpper k₂ →
        getHeaderEntry hdulC10 k₁ = getHeaderEntry hdulC10 k₂) := by
  intro hcl
  exact absurd (hcl "date" "Date" (by decide)) (by decide)

theorem aliasMiss {k : String} (hd : k ≠ "date") (hi : k ≠ "instrument") :
    KEY_TO_ATTRIBUTE.find? (fun p => p.1 == k) = none := by
  have h1 : (("date" : String) == k) = false :=
    beq_eq_false_iff_ne.mpr (fun hh => hd hh.symm)
  have h2 : (("instrument" : String) == k) = false :=
    beq_eq_false_iff_ne.mpr (fun hh => hi hh.symm)
  simp [KEY_TO_ATTRIBUTE, List.find?, h1, h2]

/-- C10 amended: the alias step is case-sensitive — only the exact lowercase
keys `"date"` and `"instrument"` are aliased, and only the exact `"date"`
triggers calendar-day truncation — so two spellings of a field name resolve
to the same value whenever both fall outside the alias table and they share
their uppercasing, the only step that is case-insensitive being the final
uppercased header lookup. -/
theorem c10_case_amended (hdul : HDUList) (k₁ k₂ : String)
    (hu : pyUpper k₁ = pyUpper k₂)
    (h1d : k₁ ≠ "date") (h1i : k₁ ≠ "instrument")
    (h2d : k₂ ≠ "date") (h2i : k₂ ≠ "instrument") :
    getHeaderEntry hdul k₁ = getHeaderEntry hdul k₂ := by
  have b1 : (k₁ == "date") = false := beq_eq_false_iff_ne.mpr h1d
  have b2 : (k₂ == "date") = false := beq_eq_false_iff_ne.mpr h2d
  unfold getHeaderEntry
  cases hh : hdul.hdus.head? with
  | none => rfl
  | some primary =>
    dsimp only
    rw [aliasMiss h1d h1i, aliasMiss h2d h2i]
    simp [hu, b1, b2]

/-- Witness for the amended C10: two capitalizations of the non-aliased
field name `instrume` resolve identically. -/
theorem c10_case_witness :
    getHeaderEntry hdulC10 "Instrume" = getHeaderEntry hdulC10 "INSTRUME" ∧
    getHeaderEntry hdulC10 "INSTRUME" = .ok "PIONIER" :=
  ⟨c10_case_amended hdulC10 "Instrume" "INSTRUME" (by decide) (by decide)
     (by decide) (by decide) (by decide),
   by decide⟩

end IrTools
